import Mathlib

/-!
Verification development for the MiWay leaderboard telemetry engine
(`src/lib/miwayService.ts`).  The TypeScript source is shallowly embedded:
numbers become `ℚ` (all JS numbers reaching these code paths are finite),
optional fields become `Option`, and the three transcendental geometry
leaves (`haversineMeters`, `calculateBearingDeg`, the weighted circular
mean of bearings) are abstracted as parameters bundled in a `Geo`
structure, since the claims under study quantify over their values.
-/

namespace Miway

/-- Snapshot stored per vehicle: `{ lat, lon, timestampSec }`. -/
structure VehicleSnapshot where
  lat : ℚ
  lon : ℚ
  timestampSec : ℚ
deriving DecidableEq, Repr

/-- Constant `MAX_HISTORY = 6`. -/
def MAX_HISTORY : ℕ := 6

/-- Constant `VEHICLE_CACHE_TTL_SEC = 300`. -/
def VEHICLE_CACHE_TTL_SEC : ℚ := 300

/-- Constant `MIN_SPEED_KMH = 1`. -/
def MIN_SPEED_KMH : ℚ := 1

/-- Constant `MAX_SPEED_KMH = 75`. -/
def MAX_SPEED_KMH : ℚ := 75

/-- Constant `MIN_TIME_DELTA_SECONDS = 8`. -/
def MIN_TIME_DELTA_SECONDS : ℚ := 8

/-- Constant `MAX_TIME_DELTA_SECONDS = 120`. -/
def MAX_TIME_DELTA_SECONDS : ℚ := 120

/-- Constant `MAX_JUMP_METERS = 600`. -/
def MAX_JUMP_METERS : ℚ := 600

/-- Constant `MAX_TOTAL_TIME_SECONDS = 120`. -/
def MAX_TOTAL_TIME_SECONDS : ℚ := 120

/-- Abstracted transcendental geometry functions.  `haversineMeters` and
`calculateBearingDeg` are the source's pure trig helpers (the source's
final `(x + 360) % 360` normalization is folded into the abstract
function's value); `circularMeanDeg` is the distance-weighted circular
mean of `(bearing, weight)` samples computed inline in
`computeSpeedFromCache`, likewise already normalized. -/
structure Geo where
  haversineMeters : ℚ → ℚ → ℚ → ℚ → ℚ
  calculateBearingDeg : ℚ → ℚ → ℚ → ℚ → ℚ
  circularMeanDeg : List (ℚ × ℚ) → ℚ

/-- Conversion m/s → km/h (`speed * 3.6`), exact. -/
def kmhOfMps (mps : ℚ) : ℚ := mps * (18 / 5)

/-- Source `isValidSpeedKmh`: finite (always, in `ℚ`) and within
`[MIN_SPEED_KMH, MAX_SPEED_KMH]`. -/
def isValidSpeedKmh (speedKmh : ℚ) : Bool :=
  decide (MIN_SPEED_KMH ≤ speedKmh) && decide (speedKmh ≤ MAX_SPEED_KMH)

/-- Result record of `computeSpeedFromCache`:
`{ speedMps?, reliable, bearingDeg? }`. -/
structure Computed where
  speedMps : Option ℚ
  reliable : Bool
  bearingDeg : Option ℚ
deriving DecidableEq, Repr

/-- The `{ reliable: false }` object used when no computation is attempted
(or the history was empty): no speed, no bearing. -/
def noComputed : Computed := ⟨none, false, none⟩

/-- The segment-accumulation loop of `computeSpeedFromCache` (lines
101-113 of the source): walk consecutive pairs, skip a pair when
`dt <= 0`, `dt > MAX_TIME_DELTA_SECONDS`, or the haversine distance
exceeds `MAX_JUMP_METERS`; otherwise accumulate distance and time and
record a `(bearing, weight := dist)` sample.  Returns
`(totalDistance, totalTime, bearings)`. -/
def segAccum (G : Geo) : List VehicleSnapshot → ℚ × ℚ × List (ℚ × ℚ)
  | [] => (0, 0, [])
  | [_] => (0, 0, [])
  | a :: b :: rest =>
    let acc := segAccum G (b :: rest)
    let dt := b.timestampSec - a.timestampSec
    if dt ≤ 0 then acc
    else if MAX_TIME_DELTA_SECONDS < dt then acc
    else
      let dist := G.haversineMeters a.lat a.lon b.lat b.lon
      if MAX_JUMP_METERS < dist then acc
      else
        (acc.1 + dist, acc.2.1 + dt,
          (G.calculateBearingDeg a.lat a.lon b.lat b.lon, dist) :: acc.2.2)

/-- Source `computeSpeedFromCache` (lines 85-150), with the vehicle-cache
lookup made explicit: the caller passes the current history.  Empty (or
missing) history returns `{ reliable: false }` immediately; otherwise the
candidate point list is `history ++ [new point]`, segments are
accumulated by `segAccum`, `reliable` and `speedMps` are derived from the
totals, and the bearing is the weighted circular mean when any segment
was accumulated, else the best-effort fallback between the last two
points guarded by `dt > 0 && dist > 0`. -/
def computeSpeedFromCache (G : Geo) (history : List VehicleSnapshot)
    (lat lon timestampSec : ℚ) : Computed :=
  if history.isEmpty then noComputed
  else
    let points := history ++ [⟨lat, lon, timestampSec⟩]
    let acc := segAccum G points
    let totalDistance := acc.1
    let totalTime := acc.2.1
    let bearings := acc.2.2
    let reliable :=
      decide (MIN_TIME_DELTA_SECONDS ≤ totalTime) &&
        decide (totalTime ≤ MAX_TOTAL_TIME_SECONDS)
    let speedMps := if 0 < totalTime then some (totalDistance / totalTime) else none
    let bearingDeg : Option ℚ :=
      if bearings.isEmpty then
        if 2 ≤ points.length then
          match points.dropLast.getLast?, points.getLast? with
          | some a, some b =>
            let dt := b.timestampSec - a.timestampSec
            let dist := G.haversineMeters a.lat a.lon b.lat b.lon
            if 0 < dt ∧ 0 < dist then
              some (G.calculateBearingDeg a.lat a.lon b.lat b.lon)
            else none
          | _, _ => none
        else none
      else some (G.circularMeanDeg bearings)
    ⟨speedMps, reliable, bearingDeg⟩

/-- The computed-speed tail of `pickSpeedMps` (lines 160-167): the
computed speed is returned when the computation is reliable, a speed is
present, and its km/h conversion is valid. -/
def pickComputedPart (computed : Option Computed) : Option ℚ :=
  match computed with
  | some c =>
    if c.reliable then
      match c.speedMps with
      | some s => if isValidSpeedKmh (kmhOfMps s) then some s else none
      | none => none
    else none
  | none => none

/-- Source `pickSpeedMps` (lines 152-168): prefer the reported speed when
its km/h conversion is valid (the early return of lines 153-158);
otherwise fall through to the computed-speed branch. -/
def pickSpeedMps (reportedMps : Option ℚ) (computed : Option Computed) : Option ℚ :=
  match reportedMps with
  | some r =>
    if isValidSpeedKmh (kmhOfMps r) then some r else pickComputedPart computed
  | none => pickComputedPart computed

/-- Result of `formatRouteVariant`. -/
structure RouteVariant where
  variantKey : String
  routeNumber : String
  directionLabel : Option String
deriving DecidableEq, Repr

/-- Source `formatRouteVariant` (lines 172-193): only an explicit feed
`directionId` (`0` → `N`, `1` → `S`, anything else → `U`) alters the
variant key and displayed route number; the `_bearing` argument is
deliberately unused. -/
def formatRouteVariant (routeId routeShortName : String)
    (directionId : Option ℤ) (_bearing : Option ℚ) : RouteVariant :=
  if directionId = some 0 then
    ⟨routeId ++ ":N", routeShortName ++ "N", some "Northbound"⟩
  else if directionId = some 1 then
    ⟨routeId ++ ":S", routeShortName ++ "S", some "Southbound"⟩
  else
    ⟨routeId ++ ":U", routeShortName, none⟩

/-- The vehicle cache (`Map<string, VehicleSnapshot[]>`), embedded as an
insertion-ordered association list with distinct keys. -/
abbrev Store := List (String × List VehicleSnapshot)

/-- `Map.set` semantics: replace the value at an existing key in place,
else append the binding at the end. -/
def insertStore (k : String) (v : List VehicleSnapshot) : Store → Store
  | [] => [(k, v)]
  | p :: rest => if p.1 = k then (k, v) :: rest else p :: insertStore k v rest

/-- History append (lines 321-327 / 440-445): push the snapshot, then
`splice(0, length - MAX_HISTORY)` when over the cap, keeping the most
recent `MAX_HISTORY` entries. -/
def appendSnap (hist : List VehicleSnapshot) (s : VehicleSnapshot) :
    List VehicleSnapshot :=
  let h := hist ++ [s]
  if MAX_HISTORY < h.length then h.drop (h.length - MAX_HISTORY) else h

/-- The eviction sweep run at the start of each cycle (lines 288-294 /
409-415): delete every key whose history is empty or whose newest
snapshot is more than `VEHICLE_CACHE_TTL_SEC` older than `nowSec`. -/
def evictStale (nowSec : ℚ) (store : Store) : Store :=
  store.filter fun p =>
    match p.2.getLast? with
    | none => false
    | some last => decide (nowSec - last.timestampSec ≤ VEHICLE_CACHE_TTL_SEC)

/-- Source `normalizeTimestampSec`, restricted to the values reaching the
embedded pipeline: an absent (`undefined`/`null`) timestamp stays absent
and a finite number is returned unchanged (the string and protobuf-Long
coercions of the source produce the same finite numbers). -/
def normalizeTimestampSec (timestamp : Option ℚ) : Option ℚ := timestamp

/-- JS truthiness of an optional finite number: `undefined`/`null` and `0`
are falsy.  This is the guard `cacheKey && timestampSeconds` applies to
the normalized timestamp. -/
def tsTruthy : Option ℚ → Bool
  | none => false
  | some t => decide (t ≠ 0)

/-- The decoded `position` message fields the pipeline reads. -/
structure Position where
  latitude : ℚ
  longitude : ℚ
  speed : Option ℚ
  bearing : Option ℚ
deriving DecidableEq, Repr

/-- One decoded feed entity carrying a vehicle report.  `entityId` is the
required `entity.id`; `vehicleId` is `vehicle.vehicle?.id`;
`routeId` is `vehicle.trip?.routeId`; an entity whose `vehicle` message is
absent is represented with `routeId = none` (it is skipped either way). -/
structure Entity where
  entityId : String
  vehicleId : Option String
  label : Option String
  routeId : Option String
  directionId : Option ℤ
  position : Option Position
  timestamp : Option ℚ
deriving DecidableEq, Repr

/-- Static route metadata (`routes.txt`): short and long display names. -/
structure RouteNames where
  shortName : String
  longName : String
deriving DecidableEq, Repr

/-- The computed result both cycle paths feed to `pickSpeedMps`: the
history-based computation is attempted only when a cache key exists and
the normalized timestamp is truthy, else `{ reliable: false }`. -/
def stepComputed (G : Geo) (store : Store) (cacheKey : Option String)
    (pos : Position) (timestampSeconds : Option ℚ) : Computed :=
  match cacheKey, timestampSeconds with
  | some key, some t =>
    if t ≠ 0 then
      computeSpeedFromCache G ((List.lookup key store).getD [])
        pos.latitude pos.longitude t
    else noComputed
  | _, _ => noComputed

/-- The history update both cycle paths perform under the same guard:
append the new snapshot to the keyed history (trimming to
`MAX_HISTORY`). -/
def stepStore (store : Store) (cacheKey : Option String)
    (pos : Position) (timestampSeconds : Option ℚ) : Store :=
  match cacheKey, timestampSeconds with
  | some key, some t =>
    if t ≠ 0 then
      insertStore key
        (appendSnap ((List.lookup key store).getD [])
          ⟨pos.latitude, pos.longitude, t⟩) store
    else store
  | _, _ => store

/-- Per-variant display metadata recorded by the leaderboard cycle. -/
structure RouteMetaInfo where
  routeNumber : String
  routeName : String
deriving DecidableEq, Repr

/-- State threaded through the leaderboard cycle's entity loop: the
vehicle cache plus the per-variant sample and metadata accumulators. -/
structure LState where
  store : Store
  routeSpeeds : List (String × List ℚ)
  routeMeta : List (String × RouteMetaInfo)
deriving DecidableEq, Repr

/-- `routeSpeeds[k].push(v)`, creating the bucket when absent. -/
def pushSample (k : String) (v : ℚ) : List (String × List ℚ) → List (String × List ℚ)
  | [] => [(k, [v])]
  | p :: rest => if p.1 = k then (k, p.2 ++ [v]) :: rest else p :: pushSample k v rest

/-- Source `routeNames?.shortName || routeId` (empty string is falsy). -/
def shortNameOf (routeNames : Option RouteNames) (routeId : String) : String :=
  match routeNames with
  | some rn => if rn.shortName = "" then routeId else rn.shortName
  | none => routeId

/-- Source `routeNames?.longName || "Route " + routeId`. -/
def longNameOf (routeNames : Option RouteNames) (routeId : String) : String :=
  match routeNames with
  | some rn => if rn.longName = "" then "Route " ++ routeId else rn.longName
  | none => "Route " ++ routeId

/-- One iteration of the leaderboard cycle's entity loop (lines 299-365).
Entities without a (truthy) route id or without coordinates are skipped;
otherwise the speed is resolved, the history updated, and — when a speed
was resolved — the km/h sample is pushed into its variant bucket (with
display metadata recorded on first touch). -/
def leaderboardStep (G : Geo) (routeMap : List (String × RouteNames))
    (st : LState) (e : Entity) : LState :=
  match e.routeId, e.position with
  | some routeId, some position =>
    if routeId = "" then st
    else
      let reportedSpeedMps := position.speed
      let vehicleId := e.vehicleId.getD e.entityId
      let timestampSeconds := normalizeTimestampSec e.timestamp
      let cacheKey : Option String :=
        if vehicleId = "" then none else some (routeId ++ ":" ++ vehicleId)
      let computed := stepComputed G st.store cacheKey position timestampSeconds
      let resolvedSpeedMps := pickSpeedMps reportedSpeedMps (some computed)
      let store' := stepStore st.store cacheKey position timestampSeconds
      match resolvedSpeedMps with
      | none => ⟨store', st.routeSpeeds, st.routeMeta⟩
      | some v =>
        let speedKmH := kmhOfMps v
        let routeNames := List.lookup routeId routeMap
        let variant :=
          formatRouteVariant routeId (shortNameOf routeNames routeId)
            e.directionId none
        let routeMeta' :=
          if (List.lookup variant.variantKey st.routeSpeeds).isSome then
            st.routeMeta
          else
            st.routeMeta ++
              [(variant.variantKey,
                ⟨variant.routeNumber, longNameOf routeNames routeId⟩)]
        ⟨store', pushSample variant.variantKey speedKmH st.routeSpeeds, routeMeta'⟩
  | _, _ => st

/-- Leaderboard entry emitted per variant bucket. -/
structure LeaderboardEntry where
  routeNumber : String
  routeName : String
  speed : ℚ
  vehicleCount : ℕ
deriving DecidableEq, Repr

/-- Rounding to one decimal place (`parseFloat(x.toFixed(1))`), embedded
exactly as round-half-up on the rational value. -/
def roundTo1 (q : ℚ) : ℚ := (⌊q * 10 + 1 / 2⌋ : ℚ) / 10

/-- Source `trimCount = Math.max(1, Math.floor(count * 0.15))`, exact. -/
def trimCount (n : ℕ) : ℕ := max 1 (n * 15 / 100)

/-- Per-bucket route speed (lines 370-377): sort ascending, trim
`trimCount` from each end via `slice(trimCount, length - trimCount)` when
at least 6 samples, then the mean rounded to one decimal. -/
def bucketSpeed (speeds : List ℚ) : ℚ :=
  let sorted := List.insertionSort (· ≤ ·) speeds
  let trimmed :=
    if 6 ≤ sorted.length then
      (sorted.take (sorted.length - trimCount sorted.length)).drop
        (trimCount sorted.length)
    else sorted
  roundTo1 (trimmed.sum / trimmed.length)

/-- One leaderboard entry from a `(variantKey, samples)` bucket (lines
369-386): trimmed-mean speed, original sample count, display fields from
the recorded metadata with falsy-string fallbacks. -/
def mkLeaderboardEntry (routeMeta : List (String × RouteMetaInfo))
    (p : String × List ℚ) : LeaderboardEntry :=
  let info := List.lookup p.1 routeMeta
  let routeNumber :=
    match info with
    | some i => if i.routeNumber = "" then p.1 else i.routeNumber
    | none => p.1
  let routeName :=
    match info with
    | some i => if i.routeName = "" then "Route" else i.routeName
    | none => "Route"
  ⟨routeNumber, routeName, bucketSpeed p.2, p.2.length⟩

/-- Descending order on entry speed used for the final sort
(`(a, b) => b.speed - a.speed`). -/
def speedGe (a b : LeaderboardEntry) : Prop := b.speed ≤ a.speed

instance : DecidableRel speedGe := fun a b =>
  inferInstanceAs (Decidable (b.speed ≤ a.speed))

/-- Final sort of the leaderboard entries, descending by speed. -/
def sortEntriesDesc (l : List LeaderboardEntry) : List LeaderboardEntry :=
  List.insertionSort speedGe l

/-- The aggregation tail of `getMiwayLeaderboard` (lines 367-387): keep
non-empty buckets, build each entry, sort descending by speed. -/
def aggregateLeaderboard (routeSpeeds : List (String × List ℚ))
    (routeMeta : List (String × RouteMetaInfo)) : List LeaderboardEntry :=
  sortEntriesDesc
    ((routeSpeeds.filter fun p => 0 < p.2.length).map (mkLeaderboardEntry routeMeta))

/-- Whole leaderboard cycle over a decoded feed: evict stale histories
first, then fold the entity loop, then aggregate. -/
def runLeaderboardCycle (G : Geo) (routeMap : List (String × RouteNames))
    (nowSec : ℚ) (entities : List Entity) (store : Store) : LState :=
  entities.foldl (leaderboardStep G routeMap) ⟨evictStale nowSec store, [], []⟩

/-- Vehicle status in the live snapshot. -/
inductive VStatus where
  | moving
  | stopped
deriving DecidableEq, Repr

/-- One vehicle of the live snapshot response. -/
structure MiwayVehicle where
  id : String
  label : Option String
  routeId : String
  routeNumber : String
  routeName : String
  latitude : ℚ
  longitude : ℚ
  bearing : Option ℚ
  speedKmh : ℚ
  timestamp : Option ℚ
  status : VStatus
deriving DecidableEq, Repr

/-- State threaded through the live-snapshot cycle's entity loop. -/
structure PState where
  store : Store
  vehicles : List MiwayVehicle
  moving : ℕ
  stopped : ℕ
  totalSpeed : ℚ
deriving DecidableEq, Repr

/-- One iteration of `getVehiclePositions`'s entity loop (lines 417-492).
Unlike the leaderboard path the cache key is unconditional (the vehicle
id has a coordinate-based fallback, unreachable here because `entity.id`
is a required field), and a resolved speed is re-checked with
`isValidSpeedKmh` before the vehicle is emitted. -/
def posStep (G : Geo) (routeMap : List (String × RouteNames))
    (st : PState) (e : Entity) : PState :=
  match e.routeId, e.position with
  | some routeId, some position =>
    if routeId = "" then st
    else
      let reportedSpeedMps := position.speed
      let timestampSeconds := normalizeTimestampSec e.timestamp
      let vehicleId := e.vehicleId.getD e.entityId
      let cacheKey := routeId ++ ":" ++ vehicleId
      let computed := stepComputed G st.store (some cacheKey) position timestampSeconds
      let resolvedSpeedMps := pickSpeedMps reportedSpeedMps (some computed)
      let store' := stepStore st.store (some cacheKey) position timestampSeconds
      match resolvedSpeedMps with
      | none => ⟨store', st.vehicles, st.moving, st.stopped, st.totalSpeed⟩
      | some v =>
        let speedKmh := kmhOfMps v
        if isValidSpeedKmh speedKmh = false then
          ⟨store', st.vehicles, st.moving, st.stopped, st.totalSpeed⟩
        else
          let routeNames := List.lookup routeId routeMap
          let finalBearing : Option ℚ :=
            match computed.bearingDeg with
            | some b => some b
            | none =>
              match position.bearing with
              | some b => some b
              | none =>
                let hist := (List.lookup cacheKey store').getD []
                if 2 ≤ hist.length then
                  match hist.dropLast.getLast?, hist.getLast? with
                  | some a, some b =>
                    if a.lat ≠ b.lat ∨ a.lon ≠ b.lon then
                      some (G.calculateBearingDeg a.lat a.lon b.lat b.lon)
                    else none
                  | _, _ => none
                else none
          let variant :=
            formatRouteVariant routeId (shortNameOf routeNames routeId)
              e.directionId finalBearing
          let status := if 2 ≤ speedKmh then VStatus.moving else VStatus.stopped
          ⟨store',
            st.vehicles ++
              [⟨vehicleId, e.label, routeId, variant.routeNumber,
                longNameOf routeNames routeId, position.latitude,
                position.longitude, finalBearing, roundTo1 speedKmh,
                timestampSeconds, status⟩],
            st.moving + (if status = VStatus.moving then 1 else 0),
            st.stopped + (if status = VStatus.stopped then 1 else 0),
            st.totalSpeed + speedKmh⟩
  | _, _ => st

/-- Whole live-snapshot cycle over a decoded feed: evict stale histories
first, then fold the entity loop. -/
def runPositionsCycle (G : Geo) (routeMap : List (String × RouteNames))
    (nowSec : ℚ) (entities : List Entity) (store : Store) : PState :=
  entities.foldl (posStep G routeMap) ⟨evictStale nowSec store, [], 0, 0, 0⟩

/-! Spec-side definitions, written from the specification's sentences, to
be compared with the embedded source functions. -/

/-- Spec side (claim C1): a reported speed is usable when it is present
and its km/h conversion (`speed * 3.6`) lies within `[1, 75]`. -/
def reportedUsable (reportedMps : Option ℚ) : Bool :=
  match reportedMps with
  | some r => decide (1 ≤ r * (18 / 5)) && decide (r * (18 / 5) ≤ 75)
  | none => false

/-- Spec side (claim C1): the computed result is usable when it is marked
reliable, carries a speed, and that speed's km/h conversion lies within
`[1, 75]`. -/
def computedUsable (computed : Option Computed) : Bool :=
  match computed with
  | some c =>
    c.reliable &&
      (match c.speedMps with
       | some s => decide (1 ≤ s * (18 / 5)) && decide (s * (18 / 5) ≤ 75)
       | none => false)
  | none => false

/-- Spec side (claim C1): speed selection as the claim words it — the
reported speed when usable, otherwise the computed speed exactly when the
computed result is usable, otherwise no speed. -/
def pickSpeedSpec (reportedMps : Option ℚ) (computed : Option Computed) : Option ℚ :=
  if reportedUsable reportedMps then reportedMps
  else if computedUsable computed then computed.bind Computed.speedMps
  else none

/-- Spec side (claim C3): a consecutive pair is a valid segment iff
`dt > 0`, `dt ≤ 120` seconds, and the haversine distance is at most
`600` meters. -/
def validSegB (G : Geo) (p : VehicleSnapshot × VehicleSnapshot) : Bool :=
  decide (0 < p.2.timestampSec - p.1.timestampSec) &&
    decide (p.2.timestampSec - p.1.timestampSec ≤ 120) &&
    decide (G.haversineMeters p.1.lat p.1.lon p.2.lat p.2.lon ≤ 600)

/-- Consecutive chronological pairs of a point list. -/
def consecPairs (l : List VehicleSnapshot) : List (VehicleSnapshot × VehicleSnapshot) :=
  l.zip l.tail

/-- Spec side (claim C3): total accumulated elapsed time over the valid
segments. -/
def specTotalTime (G : Geo) (l : List VehicleSnapshot) : ℚ :=
  (((consecPairs l).filter (validSegB G)).map
    fun p => p.2.timestampSec - p.1.timestampSec).sum

/-- Spec side (claim C3): total accumulated distance over the valid
segments. -/
def specTotalDist (G : Geo) (l : List VehicleSnapshot) : ℚ :=
  (((consecPairs l).filter (validSegB G)).map
    fun p => G.haversineMeters p.1.lat p.1.lon p.2.lat p.2.lon).sum

/-- Spec side (claims C3/C9): the distance-weighted bearing samples of the
valid segments. -/
def specBearings (G : Geo) (l : List VehicleSnapshot) : List (ℚ × ℚ) :=
  ((consecPairs l).filter (validSegB G)).map
    fun p => (G.calculateBearingDeg p.1.lat p.1.lon p.2.lat p.2.lon,
      G.haversineMeters p.1.lat p.1.lon p.2.lat p.2.lon)

/-- Constant-valued geometry instance used to evaluate the embedding on
concrete inputs: every distance is `d`, every pair bearing is `7`, every
circular mean is `9`. -/
def constGeo (d : ℚ) : Geo := ⟨fun _ _ _ _ => d, fun _ _ _ _ => 7, fun _ => 9⟩

/-- The segment loop accumulates exactly the valid segments' distances,
elapsed times and weighted bearing samples, in order. -/
theorem segAccum_eq (G : Geo) (l : List VehicleSnapshot) :
    segAccum G l = (specTotalDist G l, specTotalTime G l, specBearings G l) := by
  induction l with
  | nil => rfl
  | cons a t ih =>
    cases t with
    | nil => rfl
    | cons b rest =>
      have hpairs : consecPairs (a :: b :: rest) = (a, b) :: consecPairs (b :: rest) := rfl
      simp only [segAccum, ih, specTotalDist, specTotalTime, specBearings, hpairs,
        List.filter_cons]
      by_cases h1 : b.timestampSec - a.timestampSec ≤ 0
      · have hv : validSegB G (a, b) = false := by
          simp [validSegB, not_lt.mpr h1]
        simp [h1, hv]
      · by_cases h2 : MAX_TIME_DELTA_SECONDS < b.timestampSec - a.timestampSec
        · have hv : validSegB G (a, b) = false := by
            have : ¬ b.timestampSec - a.timestampSec ≤ 120 := by
              simpa [MAX_TIME_DELTA_SECONDS] using not_le.mpr h2
            simp [validSegB, this]
          simp [h1, h2, hv]
        · by_cases h3 : MAX_JUMP_METERS < G.haversineMeters a.lat a.lon b.lat b.lon
          · have hv : validSegB G (a, b) = false := by
              have : ¬ G.haversineMeters a.lat a.lon b.lat b.lon ≤ 600 := by
                simpa [MAX_JUMP_METERS] using not_le.mpr h3
              simp [validSegB, this]
            simp [h1, h2, h3, hv]
          · have hv : validSegB G (a, b) = true := by
              simp only [validSegB, Bool.and_eq_true, decide_eq_true_eq]
              refine ⟨⟨lt_of_not_le h1, ?_⟩, ?_⟩
              · simpa [MAX_TIME_DELTA_SECONDS] using not_lt.mp h2
              · simpa [MAX_JUMP_METERS] using not_lt.mp h3
            simp [h1, h2, h3, hv, add_comm]

/-- Spec side (claim C2): the per-bucket route speed as the claim words
it — sort the km/h samples ascending; when the count is at least 6 drop
`trimCount = max(1, floor(count * 0.15))` samples from each end (none
otherwise); the speed is the arithmetic mean of the remainder rounded to
one decimal place. -/
def specRouteSpeed (samples : List ℚ) : ℚ :=
  let sorted := List.insertionSort (· ≤ ·) samples
  let n := sorted.length
  let kept :=
    if 6 ≤ n then (sorted.drop (trimCount n)).take (n - 2 * trimCount n)
    else sorted
  roundTo1 (kept.sum / kept.length)

instance : IsTotal LeaderboardEntry speedGe :=
  ⟨fun a b => le_total b.speed a.speed⟩

instance : IsTrans LeaderboardEntry speedGe :=
  ⟨fun _ _ _ h1 h2 => le_trans h2 h1⟩

/-- C1.  Speed selection: for every report, `pickSpeedMps` returns the
report's own reported speed whenever it is present and its km/h
conversion (`speed * 3.6`) lies within `[1, 75]`; otherwise it returns
the computed speed if and only if the computed result is marked reliable
and the computed speed's km/h conversion also lies within `[1, 75]`; in
all remaining cases it returns no speed. -/
theorem pickSpeedMps_matches_spec (r : Option ℚ) (c : Option Computed) :
    pickSpeedMps r c = pickSpeedSpec r c := by
  have hpart : pickComputedPart c =
      if computedUsable c then c.bind Computed.speedMps else none := by
    cases c with
    | none => rfl
    | some cc =>
      obtain ⟨sp, rel, bd⟩ := cc
      cases rel with
      | false => rfl
      | true =>
        cases sp with
        | none => rfl
        | some s =>
          by_cases hs : isValidSpeedKmh (kmhOfMps s) = true
          · simp only [isValidSpeedKmh, kmhOfMps, MIN_SPEED_KMH, MAX_SPEED_KMH,
              Bool.and_eq_true, decide_eq_true_eq] at hs
            simp [pickComputedPart, computedUsable, isValidSpeedKmh, kmhOfMps,
              MIN_SPEED_KMH, MAX_SPEED_KMH, hs]
          · simp only [isValidSpeedKmh, kmhOfMps, MIN_SPEED_KMH, MAX_SPEED_KMH,
              Bool.and_eq_true, decide_eq_true_eq] at hs
            simp [pickComputedPart, computedUsable, isValidSpeedKmh, kmhOfMps,
              MIN_SPEED_KMH, MAX_SPEED_KMH, hs]
  cases r with
  | none =>
    have hru : reportedUsable none = false := rfl
    simp [pickSpeedMps, pickSpeedSpec, hru, hpart]
  | some rv =>
    have hru : reportedUsable (some rv) = isValidSpeedKmh (kmhOfMps rv) := rfl
    by_cases hv : isValidSpeedKmh (kmhOfMps rv) = true
    · simp [pickSpeedMps, pickSpeedSpec, hru, hv]
    · simp only [Bool.not_eq_true] at hv
      simp [pickSpeedMps, pickSpeedSpec, hru, hv, hpart]

/-- C4.  Route variant classification never uses bearing: the result of
`formatRouteVariant` is the same for every bearing argument, and is
determined solely by the direction signal — `some 0` yields the `N`
variant with displayed number `shortName ++ "N"`, `some 1` the `S`
variant, and an absent or other signal the `U` variant with the short
name unchanged. -/
theorem formatRouteVariant_spec :
    (∀ (routeId shortName : String) (d : Option ℤ) (b b2 : Option ℚ),
      formatRouteVariant routeId shortName d b =
        formatRouteVariant routeId shortName d b2) ∧
    (∀ (routeId shortName : String) (b : Option ℚ),
      formatRouteVariant routeId shortName (some 0) b =
        ⟨routeId ++ ":N", shortName ++ "N", some "Northbound"⟩) ∧
    (∀ (routeId shortName : String) (b : Option ℚ),
      formatRouteVariant routeId shortName (some 1) b =
        ⟨routeId ++ ":S", shortName ++ "S", some "Southbound"⟩) ∧
    (∀ (routeId shortName : String) (d : Option ℤ) (b : Option ℚ),
      d ≠ some 0 → d ≠ some 1 →
        formatRouteVariant routeId shortName d b =
          ⟨routeId ++ ":U", shortName, none⟩) := by
  refine ⟨fun _ _ _ _ _ => rfl, fun _ _ _ => rfl, fun _ _ _ => rfl,
    fun routeId shortName d b h0 h1 => ?_⟩
  simp [formatRouteVariant, h0, h1]

/-- Witness for C4: a report with no direction signal but a concrete
computed bearing still classifies as the `U` variant with the short name
unchanged. -/
theorem formatRouteVariant_spec_witness :
    formatRouteVariant "1078" "5" none (some 270) = ⟨"1078:U", "5", none⟩ :=
  formatRouteVariant_spec.2.2.2 "1078" "5" none (some 270)
    (by decide) (by decide)

/-- C3.  Segment filtering and reliability: `computeSpeedFromCache`
accumulates a consecutive pair's distance and elapsed time exactly when
`dt > 0`, `dt ≤ 120` s and the distance is at most `600` m; `reliable`
holds exactly when the accumulated total time lies in `[8, 120]`; the
computed speed is `totalDistance / totalTime` when `totalTime > 0` and
absent otherwise.  In particular a single pair `650` m apart with
`dt = 30` s contributes no segment, and a single pair with `dt = 5` s is
unreliable. -/
theorem computeSpeedFromCache_spec :
    (∀ (G : Geo) (history : List VehicleSnapshot) (lat lon ts : ℚ),
      ((computeSpeedFromCache G history lat lon ts).reliable = true ↔
        8 ≤ specTotalTime G (history ++ [⟨lat, lon, ts⟩]) ∧
          specTotalTime G (history ++ [⟨lat, lon, ts⟩]) ≤ 120) ∧
      (computeSpeedFromCache G history lat lon ts).speedMps =
        (if 0 < specTotalTime G (history ++ [⟨lat, lon, ts⟩]) then
          some (specTotalDist G (history ++ [⟨lat, lon, ts⟩]) /
            specTotalTime G (history ++ [⟨lat, lon, ts⟩]))
        else none)) ∧
    (specTotalTime (constGeo 650) [⟨0, 0, 0⟩, ⟨2, 2, 30⟩] = 0 ∧
      (computeSpeedFromCache (constGeo 650) [⟨0, 0, 0⟩] 2 2 30).speedMps = none ∧
      (computeSpeedFromCache (constGeo 650) [⟨0, 0, 0⟩] 2 2 30).reliable = false) ∧
    ((computeSpeedFromCache (constGeo 10) [⟨0, 0, 0⟩] 2 2 5).reliable = false) := by
  have main : ∀ (G : Geo) (history : List VehicleSnapshot) (lat lon ts : ℚ),
      ((computeSpeedFromCache G history lat lon ts).reliable = true ↔
        8 ≤ specTotalTime G (history ++ [⟨lat, lon, ts⟩]) ∧
          specTotalTime G (history ++ [⟨lat, lon, ts⟩]) ≤ 120) ∧
      (computeSpeedFromCache G history lat lon ts).speedMps =
        (if 0 < specTotalTime G (history ++ [⟨lat, lon, ts⟩]) then
          some (specTotalDist G (history ++ [⟨lat, lon, ts⟩]) /
            specTotalTime G (history ++ [⟨lat, lon, ts⟩]))
        else none) := by
    intro G history lat lon ts
    by_cases hh : history.isEmpty
    · have hnil : history = [] := List.isEmpty_iff.mp hh
      subst hnil
      simp [computeSpeedFromCache, noComputed, specTotalTime, consecPairs,
        MIN_TIME_DELTA_SECONDS]
    · simp only [Bool.not_eq_true] at hh
      simp only [computeSpeedFromCache, hh, Bool.false_eq_true, if_false,
        segAccum_eq, Bool.and_eq_true, decide_eq_true_eq,
        MIN_TIME_DELTA_SECONDS, MAX_TOTAL_TIME_SECONDS]
      exact ⟨trivial, trivial⟩
  have hT650 : specTotalTime (constGeo 650) [⟨0, 0, 0⟩, ⟨2, 2, 30⟩] = 0 := by
    norm_num [specTotalTime, consecPairs, validSegB, constGeo, List.filter]
  have hT10 : specTotalTime (constGeo 10) [⟨0, 0, 0⟩, ⟨2, 2, 5⟩] = 5 := by
    norm_num [specTotalTime, consecPairs, validSegB, constGeo, List.filter]
  have happ650 : ([⟨0, 0, 0⟩] : List VehicleSnapshot) ++ [⟨2, 2, 30⟩] =
      [⟨0, 0, 0⟩, ⟨2, 2, 30⟩] := rfl
  refine ⟨main, ⟨hT650, ?_, ?_⟩, ?_⟩
  · rw [(main (constGeo 650) [⟨0, 0, 0⟩] 2 2 30).2, happ650, hT650]
    norm_num
  · rw [Bool.eq_false_iff, Ne, (main (constGeo 650) [⟨0, 0, 0⟩] 2 2 30).1,
      happ650, hT650]
    norm_num
  · rw [Bool.eq_false_iff, Ne, (main (constGeo 10) [⟨0, 0, 0⟩] 2 2 5).1]
    have : ([⟨0, 0, 0⟩] : List VehicleSnapshot) ++ [⟨2, 2, 5⟩] =
        [⟨0, 0, 0⟩, ⟨2, 2, 5⟩] := rfl
    rw [this, hT10]
    norm_num

/-- The source's trim `slice(trimCount, length - trimCount)` equals the
spec's "drop `trimCount` from each end", so the per-bucket speed matches
the spec-side trimmed mean. -/
theorem bucketSpeed_eq_spec (samples : List ℚ) :
    bucketSpeed samples = specRouteSpeed samples := by
  simp only [bucketSpeed, specRouteSpeed]
  by_cases h6 : 6 ≤ (List.insertionSort (· ≤ ·) samples).length
  · rw [if_pos h6, if_pos h6, List.drop_take]
    have h2 :
        (List.insertionSort (· ≤ ·) samples).length -
            trimCount (List.insertionSort (· ≤ ·) samples).length -
            trimCount (List.insertionSort (· ≤ ·) samples).length =
          (List.insertionSort (· ≤ ·) samples).length -
            2 * trimCount (List.insertionSort (· ≤ ·) samples).length := by
      omega
    rw [h2]
  · rw [if_neg h6, if_neg h6]

/-- C2.  Route aggregation: each leaderboard entry's speed is the
spec-side trimmed mean of its bucket (sort ascending, drop
`max(1, floor(count * 0.15))` from each end when the count is at least 6,
mean rounded to one decimal) and its `vehicleCount` is the untrimmed
sample count; the emitted collection is sorted descending by speed; and
the samples `[10,12,13,14,15,16,90]` yield speed `14.0` with count `7`
while `[20,30,100]` yield `50.0`. -/
theorem aggregateLeaderboard_spec :
    (∀ (routeMeta : List (String × RouteMetaInfo)) (p : String × List ℚ),
      (mkLeaderboardEntry routeMeta p).speed = specRouteSpeed p.2 ∧
        (mkLeaderboardEntry routeMeta p).vehicleCount = p.2.length) ∧
    (∀ (routeSpeeds : List (String × List ℚ))
        (routeMeta : List (String × RouteMetaInfo)),
      aggregateLeaderboard routeSpeeds routeMeta =
        sortEntriesDesc
          ((routeSpeeds.filter fun p => 0 < p.2.length).map
            (mkLeaderboardEntry routeMeta)) ∧
        (aggregateLeaderboard routeSpeeds routeMeta).Sorted speedGe) ∧
    (aggregateLeaderboard
        [("a", [10, 12, 13, 14, 15, 16, 90]), ("b", [20, 30, 100])] [] =
      [⟨"b", "Route", 50, 3⟩, ⟨"a", "Route", 14, 7⟩]) := by
  refine ⟨fun routeMeta p => ⟨bucketSpeed_eq_spec p.2, rfl⟩,
    fun routeSpeeds routeMeta =>
      ⟨rfl, List.sorted_insertionSort speedGe _⟩, ?_⟩
  norm_num [aggregateLeaderboard, sortEntriesDesc, mkLeaderboardEntry,
    bucketSpeed, trimCount, roundTo1, List.insertionSort, List.orderedInsert,
    List.filter, speedGe]

/-- Repeated appends starting from an empty history keep exactly the
`MAX_HISTORY` most recently appended snapshots, in insertion order. -/
theorem foldl_appendSnap (xs : List VehicleSnapshot) :
    List.foldl appendSnap [] xs = xs.drop (xs.length - MAX_HISTORY) := by
  induction xs using List.reverseRecOn with
  | nil => rfl
  | append_singleton ys s ih =>
    rw [List.foldl_append, ih]
    simp only [List.foldl_cons, List.foldl_nil]
    by_cases h : ys.length ≤ 5
    · have h1 : ys.length - MAX_HISTORY = 0 := by simp only [MAX_HISTORY]; omega
      have h2 : (ys ++ [s]).length - MAX_HISTORY = 0 := by
        simp only [MAX_HISTORY, List.length_append, List.length_singleton]; omega
      rw [h1, h2]
      simp only [List.drop_zero]
      have hlen : ¬ MAX_HISTORY < (ys ++ [s]).length := by
        simp only [MAX_HISTORY, List.length_append, List.length_singleton]; omega
      simp only [appendSnap, hlen, if_false]
    · push_neg at h
      have h6 : 6 ≤ ys.length := h
      have hdlen : (ys.drop (ys.length - MAX_HISTORY)).length = 6 := by
        simp only [MAX_HISTORY, List.length_drop]; omega
      have hlen : MAX_HISTORY < (ys.drop (ys.length - MAX_HISTORY) ++ [s]).length := by
        simp only [MAX_HISTORY, List.length_append, List.length_singleton] at hdlen ⊢
        omega
      simp only [appendSnap, hlen, if_true]
      have hdrop1 : (ys.drop (ys.length - MAX_HISTORY) ++ [s]).length - MAX_HISTORY = 1 := by
        simp only [List.length_append, List.length_singleton, List.length_drop,
          MAX_HISTORY]
        omega
      rw [hdrop1]
      have hone : (1 : ℕ) ≤ (ys.drop (ys.length - MAX_HISTORY)).length := by omega
      rw [List.drop_append_of_le_length hone, List.drop_drop]
      have hright : ((ys ++ [s]).length - MAX_HISTORY) ≤ ys.length := by
        simp only [MAX_HISTORY, List.length_append, List.length_singleton]; omega
      rw [List.drop_append_of_le_length hright]
      have : ys.length - MAX_HISTORY + 1 = (ys ++ [s]).length - MAX_HISTORY := by
        simp only [MAX_HISTORY, List.length_append, List.length_singleton]; omega
      rw [this]

/-- C5.  History bound invariant: after any sequence of appends starting
from an empty history, a vehicle history holds exactly the
`MAX_HISTORY = 6` most recently appended snapshots in insertion
(oldest-first) order — in particular at most 6 — and appending 10
snapshots leaves exactly the 6 most recent, order preserved. -/
theorem appendSnap_bound_spec :
    (∀ xs : List VehicleSnapshot,
      List.foldl appendSnap [] xs = xs.drop (xs.length - MAX_HISTORY) ∧
        (List.foldl appendSnap [] xs).length ≤ MAX_HISTORY) ∧
    (List.foldl appendSnap []
        [⟨1, 1, 1⟩, ⟨2, 2, 2⟩, ⟨3, 3, 3⟩, ⟨4, 4, 4⟩, ⟨5, 5, 5⟩,
          ⟨6, 6, 6⟩, ⟨7, 7, 7⟩, ⟨8, 8, 8⟩, ⟨9, 9, 9⟩, ⟨10, 10, 10⟩] =
      [⟨5, 5, 5⟩, ⟨6, 6, 6⟩, ⟨7, 7, 7⟩, ⟨8, 8, 8⟩, ⟨9, 9, 9⟩, ⟨10, 10, 10⟩]) := by
  constructor
  · intro xs
    refine ⟨foldl_appendSnap xs, ?_⟩
    rw [foldl_appendSnap xs]
    simp only [List.length_drop]
    omega
  · rw [foldl_appendSnap]
    decide

/-- Lookup misses survive filtering: a key absent from a store is also
absent from any filtered store. -/
theorem lookup_filter_none (k : String) (pred : String × List VehicleSnapshot → Bool) :
    ∀ store : Store, k ∉ store.map Prod.fst →
      List.lookup k (store.filter pred) = none := by
  intro store
  induction store with
  | nil => intro _; rfl
  | cons p rest ih =>
    intro hk
    simp only [List.map_cons, List.mem_cons, not_or] at hk
    rw [List.filter_cons]
    by_cases hp : pred p = true
    · rw [if_pos hp]
      have hbeq : (k == p.1) = false := by
        simp only [beq_eq_false_iff_ne, ne_eq]
        exact hk.1
      cases p with
      | mk k2 v2 =>
        simp only [List.lookup, hbeq]
        exact ih hk.2
    · rw [if_neg hp]
      exact ih hk.2

/-- C8.  TTL eviction: `evictStale` removes exactly the keys whose newest
snapshot is more than `VEHICLE_CACHE_TTL_SEC = 300` seconds older than
the current time and retains (unchanged) every key whose newest snapshot
is at most `300` seconds old; and both cycle functions run it on the
store before folding the entity loop over any report. -/
theorem evictStale_spec :
    (∀ (nowSec : ℚ) (store : Store) (k : String) (h : List VehicleSnapshot)
        (last : VehicleSnapshot),
      (store.map Prod.fst).Nodup →
      List.lookup k store = some h →
      h.getLast? = some last →
      ((VEHICLE_CACHE_TTL_SEC < nowSec - last.timestampSec →
          List.lookup k (evictStale nowSec store) = none) ∧
        (nowSec - last.timestampSec ≤ VEHICLE_CACHE_TTL_SEC →
          List.lookup k (evictStale nowSec store) = some h))) ∧
    (∀ (G : Geo) (routeMap : List (String × RouteNames)) (nowSec : ℚ)
        (entities : List Entity) (store : Store),
      runLeaderboardCycle G routeMap nowSec entities store =
        List.foldl (leaderboardStep G routeMap)
          ⟨evictStale nowSec store, [], []⟩ entities ∧
      runPositionsCycle G routeMap nowSec entities store =
        List.foldl (posStep G routeMap)
          ⟨evictStale nowSec store, [], 0, 0, 0⟩ entities) := by
  refine ⟨fun nowSec store => ?_, fun _ _ _ _ _ => ⟨rfl, rfl⟩⟩
  induction store with
  | nil => intro k h last _ hlook; exact absurd hlook (by simp [List.lookup])
  | cons p rest ih =>
    intro k h last hnd hlook hlast
    simp only [List.map_cons, List.nodup_cons] at hnd
    by_cases hk : k = p.1
    · subst hk
      cases p with
      | mk k2 v2 =>
        simp only at hnd ⊢
        have hbeq : (k2 == k2) = true := beq_self_eq_true k2
        simp only [List.lookup, hbeq] at hlook
        have hv : v2 = h := by injection hlook
        subst hv
        simp only [evictStale, List.filter_cons]
        constructor
        · intro hstale
          have hpred :
              (match v2.getLast? with
                | none => false
                | some last =>
                  decide (nowSec - last.timestampSec ≤ VEHICLE_CACHE_TTL_SEC)) = false := by
            rw [hlast]
            simp only [decide_eq_false_iff_not, not_le]
            exact hstale
          rw [if_neg (by rw [hpred]; exact Bool.false_ne_true)]
          exact lookup_filter_none k2 _ rest hnd.1
        · intro hfresh
          have hpred :
              (match v2.getLast? with
                | none => false
                | some last =>
                  decide (nowSec - last.timestampSec ≤ VEHICLE_CACHE_TTL_SEC)) = true := by
            rw [hlast]
            simp only [decide_eq_true_eq]
            exact hfresh
          rw [if_pos hpred]
          simp [List.lookup, hbeq]
    · cases p with
      | mk k2 v2 =>
        simp only at hnd
        have hbeq : (k == k2) = false := by
          simp only [beq_eq_false_iff_ne, ne_eq]
          exact hk
        simp only [List.lookup, hbeq] at hlook
        have hrest := ih k h last hnd.2 hlook hlast
        simp only [evictStale, List.filter_cons] at hrest ⊢
        by_cases hp :
            (match v2.getLast? with
              | none => false
              | some last =>
                decide (nowSec - last.timestampSec ≤ VEHICLE_CACHE_TTL_SEC)) = true
        · rw [if_pos hp]
          simpa [List.lookup, hbeq] using hrest
        · rw [if_neg hp]
          exact hrest

/-- Witness for C8: with the current time `301`, a key whose newest
snapshot has timestamp `0` (age 301) is evicted while a key whose newest
snapshot has timestamp `2` (age 299) is retained unchanged. -/
theorem evictStale_spec_witness :
    List.lookup "a" (evictStale 301 [("a", [⟨0, 0, 0⟩]), ("b", [⟨0, 0, 2⟩])]) =
        none ∧
      List.lookup "b" (evictStale 301 [("a", [⟨0, 0, 0⟩]), ("b", [⟨0, 0, 2⟩])]) =
        some [⟨0, 0, 2⟩] :=
  ⟨(evictStale_spec.1 301 [("a", [⟨0, 0, 0⟩]), ("b", [⟨0, 0, 2⟩])] "a"
      [⟨0, 0, 0⟩] ⟨0, 0, 0⟩ (by decide) rfl rfl).1
      (by norm_num [VEHICLE_CACHE_TTL_SEC]),
    (evictStale_spec.1 301 [("a", [⟨0, 0, 0⟩]), ("b", [⟨0, 0, 2⟩])] "b"
      [⟨0, 0, 2⟩] ⟨0, 0, 2⟩ (by decide) rfl rfl).2
      (by norm_num [VEHICLE_CACHE_TTL_SEC])⟩

/-- C7.  Exclusion still records history: a report that reaches the
resolver (route id and coordinates present) but yields no usable speed
contributes no sample to the leaderboard aggregation and no entry or
stats to the live snapshot for that cycle, yet — since it carries a
usable timestamp and a vehicle identity — its `(lat, lon, timestamp)`
snapshot is still appended to that vehicle's history in both paths. -/
theorem excluded_still_records_history
    (G : Geo) (routeMap : List (String × RouteNames)) (stL : LState)
    (stP : PState) (e : Entity) (routeId : String) (pos : Position) (t : ℚ)
    (hroute : e.routeId = some routeId) (hrne : ¬ routeId = "")
    (hpos : e.position = some pos)
    (hts : e.timestamp = some t) (htne : t ≠ 0)
    (hvid : ¬ e.vehicleId.getD e.entityId = "")
    (hnoL : pickSpeedMps pos.speed
      (some (stepComputed G stL.store
        (some (routeId ++ ":" ++ e.vehicleId.getD e.entityId)) pos (some t))) = none)
    (hnoP : pickSpeedMps pos.speed
      (some (stepComputed G stP.store
        (some (routeId ++ ":" ++ e.vehicleId.getD e.entityId)) pos (some t))) = none) :
    leaderboardStep G routeMap stL e =
      ⟨insertStore (routeId ++ ":" ++ e.vehicleId.getD e.entityId)
          (appendSnap
            ((List.lookup (routeId ++ ":" ++ e.vehicleId.getD e.entityId)
              stL.store).getD [])
            ⟨pos.latitude, pos.longitude, t⟩) stL.store,
        stL.routeSpeeds, stL.routeMeta⟩ ∧
    posStep G routeMap stP e =
      ⟨insertStore (routeId ++ ":" ++ e.vehicleId.getD e.entityId)
          (appendSnap
            ((List.lookup (routeId ++ ":" ++ e.vehicleId.getD e.entityId)
              stP.store).getD [])
            ⟨pos.latitude, pos.longitude, t⟩) stP.store,
        stP.vehicles, stP.moving, stP.stopped, stP.totalSpeed⟩ := by
  have hstoreL : stepStore stL.store
      (some (routeId ++ ":" ++ e.vehicleId.getD e.entityId)) pos (some t) =
      insertStore (routeId ++ ":" ++ e.vehicleId.getD e.entityId)
        (appendSnap
          ((List.lookup (routeId ++ ":" ++ e.vehicleId.getD e.entityId)
            stL.store).getD [])
          ⟨pos.latitude, pos.longitude, t⟩) stL.store := by
    simp only [stepStore, if_pos htne]
  have hstoreP : stepStore stP.store
      (some (routeId ++ ":" ++ e.vehicleId.getD e.entityId)) pos (some t) =
      insertStore (routeId ++ ":" ++ e.vehicleId.getD e.entityId)
        (appendSnap
          ((List.lookup (routeId ++ ":" ++ e.vehicleId.getD e.entityId)
            stP.store).getD [])
          ⟨pos.latitude, pos.longitude, t⟩) stP.store := by
    simp only [stepStore, if_pos htne]
  constructor
  · simp only [leaderboardStep, hroute, hpos, hts, normalizeTimestampSec,
      if_neg hrne, if_neg hvid, hnoL, hstoreL]
  · simp only [posStep, hroute, hpos, hts, normalizeTimestampSec,
      if_neg hrne, hnoP, hstoreP]

/-- Concrete excluded report used to instantiate C7: no reported speed,
empty history, so no speed resolves. -/
def exEntity : Entity :=
  ⟨"e1", some "v", none, some "R", none, some ⟨1, 2, none, none⟩, some 100⟩

/-- Witness for C7: the excluded report leaves the sample, metadata,
vehicle and stats accumulators untouched while its snapshot is appended
to the vehicle's history in both cycle paths. -/
theorem excluded_still_records_history_witness :
    leaderboardStep (constGeo 0) [] ⟨[], [], []⟩ exEntity =
      ⟨[("R:v", [⟨1, 2, 100⟩])], [], []⟩ ∧
    posStep (constGeo 0) [] ⟨[], [], 0, 0, 0⟩ exEntity =
      ⟨[("R:v", [⟨1, 2, 100⟩])], [], 0, 0, 0⟩ := by
  have h := excluded_still_records_history (constGeo 0) [] ⟨[], [], []⟩
    ⟨[], [], 0, 0, 0⟩ exEntity "R" ⟨1, 2, none, none⟩ 100 rfl (by decide) rfl rfl
    (by norm_num) (by decide) (by decide) (by decide)
  exact ⟨h.1.trans (by decide), h.2.trans (by decide)⟩

/-- Report of vehicle `v` on route `R` at timestamp `100`. -/
def entT100 : Entity :=
  ⟨"e1", some "v", none, some "R", none, some ⟨0, 0, none, none⟩, some 100⟩

/-- Report of the same vehicle with the older timestamp `50`. -/
def entT50 : Entity :=
  ⟨"e1", some "v", none, some "R", none, some ⟨0, 0, none, none⟩, some 50⟩

/-- Both branches of the resolved-speed match leave the same store, so
the leaderboard step's history update does not depend on whether a speed
resolved. -/
theorem leaderboardStep_store (G : Geo) (routeMap : List (String × RouteNames))
    (st : LState) (e : Entity) (routeId : String) (pos : Position)
    (hroute : e.routeId = some routeId) (hpos : e.position = some pos)
    (hrne : ¬ routeId = "") :
    (leaderboardStep G routeMap st e).store =
      stepStore st.store
        (if e.vehicleId.getD e.entityId = "" then none
         else some (routeId ++ ":" ++ e.vehicleId.getD e.entityId))
        pos (normalizeTimestampSec e.timestamp) := by
  simp only [leaderboardStep, hroute, hpos, if_neg hrne]
  split <;> rfl

/-- Counterexample to C6: processing a report with timestamp `100` and
then one with timestamp `50` for the same vehicle leaves a history whose
timestamps `[100, 50]` are not non-decreasing — the append is
unconditional, so out-of-order reports do corrupt the timestamp order. -/
theorem history_order_counterexample :
    (List.lookup "R:v"
      (leaderboardStep (constGeo 0) []
        (leaderboardStep (constGeo 0) [] ⟨[], [], []⟩ entT100) entT50).store) =
      some [⟨0, 0, 100⟩, ⟨0, 0, 50⟩] ∧
    ¬ List.Chain' (· ≤ ·)
        (List.map VehicleSnapshot.timestampSec [⟨0, 0, 100⟩, ⟨0, 0, 50⟩]) := by
  constructor
  · have h1 : leaderboardStep (constGeo 0) [] ⟨[], [], []⟩ entT100 =
        ⟨[("R:v", [⟨0, 0, 100⟩])], [], []⟩ := by decide
    rw [h1, leaderboardStep_store (constGeo 0) []
      ⟨[("R:v", [⟨0, 0, 100⟩])], [], []⟩ entT50 "R" ⟨0, 0, none, none⟩
      rfl rfl (by decide)]
    decide
  · norm_num [List.map, List.chain'_cons, List.chain'_singleton]

/-- C6 amended: histories can hold out-of-order timestamps (appends are
unconditional), but `computeSpeedFromCache`'s segment walk skips every
pair with non-positive elapsed time, so the accumulated total time is a
sum of positive elapsed times and is never negative. -/
theorem segAccum_time_nonneg (G : Geo) (l : List VehicleSnapshot) :
    0 ≤ (segAccum G l).2.1 := by
  rw [segAccum_eq]
  refine List.sum_nonneg ?_
  intro x hx
  simp only [List.mem_map, List.mem_filter] at hx
  obtain ⟨p, ⟨_, hv⟩, hxeq⟩ := hx
  simp only [validSegB, Bool.and_eq_true, decide_eq_true_eq] at hv
  subst hxeq
  exact le_of_lt hv.1.1

/-- C9 amended: when `computeSpeedFromCache` accumulates no valid segment
and the history is non-empty, the best-effort fallback bearing between
the last history point and the new point is returned precisely when that
pair has positive elapsed time and positive distance — which covers pairs
that failed the filters by exceeding the thresholds (`dt > 120` s or
distance `> 600` m), but not pairs with non-positive `dt` or zero
distance. -/
theorem fallback_bearing_spec (G : Geo) (history : List VehicleSnapshot)
    (lat lon ts : ℚ) (a : VehicleSnapshot)
    (hlast : history.getLast? = some a)
    (hnoseg : (consecPairs (history ++ [⟨lat, lon, ts⟩])).filter (validSegB G) = []) :
    (computeSpeedFromCache G history lat lon ts).bearingDeg =
      (if 0 < ts - a.timestampSec ∧ 0 < G.haversineMeters a.lat a.lon lat lon
       then some (G.calculateBearingDeg a.lat a.lon lat lon)
       else none) := by
  have hne : history ≠ [] := by
    intro h
    rw [h] at hlast
    exact Option.noConfusion hlast
  have hie : history.isEmpty = false := by
    cases history with
    | nil => exact absurd rfl hne
    | cons x xs => rfl
  have h2 : 2 ≤ (history ++ [(⟨lat, lon, ts⟩ : VehicleSnapshot)]).length := by
    cases history with
    | nil => exact absurd rfl hne
    | cons x xs =>
      simp only [List.length_append, List.length_cons, List.length_singleton]
      omega
  have hdl : (history ++ [(⟨lat, lon, ts⟩ : VehicleSnapshot)]).dropLast = history :=
    List.dropLast_concat ..
  have hgl : (history ++ [(⟨lat, lon, ts⟩ : VehicleSnapshot)]).getLast? =
      some ⟨lat, lon, ts⟩ := List.getLast?_concat ..
  have hbear : specBearings G (history ++ [⟨lat, lon, ts⟩]) = [] := by
    simp [specBearings, hnoseg]
  simp only [computeSpeedFromCache, hie, Bool.false_eq_true, if_false,
    segAccum_eq, hbear, List.isEmpty_nil, if_pos h2, hdl, hgl, hlast, if_true]

/-- Witness for C9 (amended): with the single pair `dt = 200 > 120` and
distance `700 > 600` — both beyond the segment filters — no segment
accumulates, yet the fallback bearing is still returned because the pair
has positive `dt` and positive distance. -/
theorem fallback_bearing_spec_witness :
    (consecPairs ([⟨0, 0, 0⟩] ++ [⟨1, 1, 200⟩])).filter (validSegB (constGeo 700)) =
        [] ∧
      (computeSpeedFromCache (constGeo 700) [⟨0, 0, 0⟩] 1 1 200).bearingDeg =
        some 7 := by
  have hseg : (consecPairs ([⟨0, 0, 0⟩] ++ [⟨1, 1, 200⟩])).filter
      (validSegB (constGeo 700)) = [] := by
    norm_num [consecPairs, validSegB, constGeo, List.filter,
      List.singleton_append, MAX_TIME_DELTA_SECONDS]
  refine ⟨hseg, ?_⟩
  rw [fallback_bearing_spec (constGeo 700) [⟨0, 0, 0⟩] 1 1 200 ⟨0, 0, 0⟩ rfl hseg]
  norm_num [constGeo]

/-- Counterexample to C9 as stated: a non-empty history whose only pair
fails the `dt` filter with `dt = 0` accumulates no segment, and the
fallback also returns no bearing (it requires `dt > 0`), so a best-effort
bearing is not always returned in the claimed situation. -/
theorem fallback_bearing_counterexample :
    ([⟨0, 0, 100⟩] : List VehicleSnapshot) ≠ [] ∧
    (consecPairs ([⟨0, 0, 100⟩] ++ [⟨1, 1, 100⟩])).filter (validSegB (constGeo 650)) =
        [] ∧
    (computeSpeedFromCache (constGeo 650) [⟨0, 0, 100⟩] 1 1 100).bearingDeg =
        none := by
  have hseg : (consecPairs ([⟨0, 0, 100⟩] ++ [⟨1, 1, 100⟩])).filter
      (validSegB (constGeo 650)) = [] := by
    norm_num [consecPairs, validSegB, constGeo, List.filter,
      List.singleton_append]
  refine ⟨by decide, hseg, ?_⟩
  have hbear : specBearings (constGeo 650) ([⟨0, 0, 100⟩] ++ [⟨1, 1, 100⟩]) = [] := by
    simp only [specBearings, hseg, List.map_nil]
  simp only [computeSpeedFromCache, segAccum_eq, hbear]
  norm_num [constGeo, List.dropLast, List.getLast?]

/-- Construct an entity overriding only the timestamp field. -/
def setTimestamp (e : Entity) (t : Option ℚ) : Entity :=
  ⟨e.entityId, e.vehicleId, e.label, e.routeId, e.directionId, e.position, t⟩

/-- The history-based computation is skipped for a zero timestamp, exactly
as for an absent one. -/
theorem stepComputed_zero (G : Geo) (store : Store) (key : Option String)
    (pos : Position) :
    stepComputed G store key pos (some 0) = noComputed ∧
      stepComputed G store key pos none = noComputed := by
  cases key <;> simp [stepComputed]

/-- The history append is skipped for a zero timestamp, exactly as for an
absent one. -/
theorem stepStore_zero (store : Store) (key : Option String) (pos : Position) :
    stepStore store key pos (some 0) = store ∧
      stepStore store key pos none = store := by
  cases key <;> simp [stepStore]

/-- The live-snapshot step's history update only depends on the entity
through its key, position and timestamp. -/
theorem posStep_store (G : Geo) (routeMap : List (String × RouteNames))
    (st : PState) (e : Entity) (routeId : String) (pos : Position)
    (hroute : e.routeId = some routeId) (hpos : e.position = some pos)
    (hrne : ¬ routeId = "") :
    (posStep G routeMap st e).store =
      stepStore st.store (some (routeId ++ ":" ++ e.vehicleId.getD e.entityId))
        pos (normalizeTimestampSec e.timestamp) := by
  simp only [posStep, hroute, hpos, if_neg hrne]
  split
  · rfl
  · split <;> rfl

/-- C10.  Zero timestamp treated as absent: for a report whose timestamp
is exactly `0`, the truthiness guard makes the pipeline behave as if no
timestamp were present — the history-based computation is not attempted
(it yields `{ reliable: false }` with no speed and no bearing), no
snapshot is appended in either cycle path, and the whole leaderboard step
coincides with the step on the same report with the timestamp removed. -/
theorem zero_timestamp_spec :
    (∀ (G : Geo) (store : Store) (key : Option String) (pos : Position),
      stepComputed G store key pos (some 0) = noComputed ∧
        stepComputed G store key pos (some 0) = stepComputed G store key pos none ∧
        stepStore store key pos (some 0) = store) ∧
    (∀ (G : Geo) (routeMap : List (String × RouteNames)) (st : LState)
        (e : Entity),
      leaderboardStep G routeMap st (setTimestamp e (some 0)) =
        leaderboardStep G routeMap st (setTimestamp e none) ∧
      (leaderboardStep G routeMap st (setTimestamp e (some 0))).store = st.store) ∧
    (∀ (G : Geo) (routeMap : List (String × RouteNames)) (st : PState)
        (e : Entity),
      (posStep G routeMap st (setTimestamp e (some 0))).store = st.store) := by
  refine ⟨fun G store key pos =>
      ⟨(stepComputed_zero G store key pos).1,
        (stepComputed_zero G store key pos).1.trans
          (stepComputed_zero G store key pos).2.symm,
        (stepStore_zero store key pos).1⟩,
    fun G routeMap st e => ?_, fun G routeMap st e => ?_⟩
  · cases hroute : e.routeId with
    | none =>
      constructor
      · simp [leaderboardStep, setTimestamp, hroute]
      · simp [leaderboardStep, setTimestamp, hroute]
    | some rid =>
      cases hpos : e.position with
      | none =>
        constructor
        · simp [leaderboardStep, setTimestamp, hroute, hpos]
        · simp [leaderboardStep, setTimestamp, hroute, hpos]
      | some pos =>
        by_cases hr : rid = ""
        · constructor
          · simp [leaderboardStep, setTimestamp, hroute, hpos, hr]
          · simp [leaderboardStep, setTimestamp, hroute, hpos, hr]
        · constructor
          · simp only [leaderboardStep, setTimestamp, hroute, hpos,
              if_neg hr, normalizeTimestampSec,
              (stepComputed_zero G st.store _ pos).1,
              (stepComputed_zero G st.store _ pos).2,
              (stepStore_zero st.store _ pos).1,
              (stepStore_zero st.store _ pos).2]
          · rw [leaderboardStep_store G routeMap st (setTimestamp e (some 0))
              rid pos hroute hpos hr]
            exact (stepStore_zero st.store _ pos).1
  · cases hroute : e.routeId with
    | none => simp [posStep, setTimestamp, hroute]
    | some rid =>
      cases hpos : e.position with
      | none => simp [posStep, setTimestamp, hroute, hpos]
      | some pos =>
        by_cases hr : rid = ""
        · simp [posStep, setTimestamp, hroute, hpos, hr]
        · rw [posStep_store G routeMap st (setTimestamp e (some 0))
            rid pos hroute hpos hr]
          exact (stepStore_zero st.store _ pos).1

end Miway
